import Mathlib

/-
Shallow embedding of drf-multipart-renderer
(src/drf_multipart_renderer/multipart_renderer.py).

The renderer turns an ordered mapping of field name to value into a
multipart/form-data byte string.  Byte strings are modelled as `List Nat`
(each entry a byte value).  Python runtime values are modelled by the tagged
type `Value`, whose constructors record exactly the shape information the
renderer inspects: the isinstance checks for str / int / float / bool / dict /
None, the duck-typed is_file check (a callable `read` attribute), the
Iterable check, and the nested isinstance check for list and tuple inside the
iteration loop.  Numbers are modelled as integers (float formatting is a
collaborator detail no property here depends on).

Exceptions abort the whole render in the source, so fallible operations
return `Except RenderError`.
-/

namespace DrfMultipart

/-- Models the UTF-8 encoding collaborator (`force_bytes(s, "utf-8")` for a
text string): the standard UTF-8 byte sequence of each character. -/
def encodeChar (c : Char) : List Nat :=
  let n := c.toNat
  if n < 0x80 then [n]
  else if n < 0x800 then [0xC0 ||| (n >>> 6), 0x80 ||| (n &&& 0x3F)]
  else if n < 0x10000 then
    [0xE0 ||| (n >>> 12), 0x80 ||| ((n >>> 6) &&& 0x3F), 0x80 ||| (n &&& 0x3F)]
  else
    [0xF0 ||| (n >>> 18), 0x80 ||| ((n >>> 12) &&& 0x3F),
     0x80 ||| ((n >>> 6) &&& 0x3F), 0x80 ||| (n &&& 0x3F)]

/-- Source `to_bytes`: UTF-8 encode a string (`force_bytes(s, "utf-8")`).
Applied to a value that is already a byte string, `force_bytes` is the
identity; call sites below pass raw byte lists straight through instead. -/
def to_bytes (s : String) : List Nat := (s.data.map encodeChar).flatten

/-- Byte pair for the line terminator `\r\n`. -/
def CRLF : List Nat := [13, 10]

/-- Source `b"\r\n".join(lines)`. -/
def joinCRLF : List (List Nat) → List Nat
  | [] => []
  | [l] => l
  | l :: ls => l ++ CRLF ++ joinCRLF ls

/-- The `name` attribute of a file-like object: absent, a text string (a
path), or a non-string value such as the int file descriptor that
`tempfile.TemporaryFile()` exposes. -/
inductive NameAttr where
  | absent
  | text (s : String)
  | fd (n : Int)
deriving DecidableEq

/-- A file-like object as the renderer observes it: it has a callable `read`
(that is what classifies it), `read()` yields `content` (the bytes from the
object's current position to the end), and it may carry `name` and
`content_type` attributes.  `content_type = some v` means the attribute
exists with value `v`, where `v = none` is Python `None`.  `oid` models
Python object identity; the renderer never reads it, and two distinct stream
objects with the same attributes and remaining content differ only in it. -/
structure FileStream where
  oid : Nat
  name : NameAttr
  content_type : Option (Option String)
  content : List Nat
deriving DecidableEq

/-- Python runtime values, by the shape information the renderer inspects.
`list` stands for both Python `list` and `tuple` (the two are
indistinguishable to every check in the source); `iter` is any other
iterable (generator, set, and so on) together with its iteration order;
`other` is a value failing every check (for example a function), carrying
its runtime type name for the error message. -/
inductive Value where
  | str (s : String)
  | int (n : Int)
  | bool (b : Bool)
  | null
  | dict (fields : List (String × Value))
  | file (f : FileStream)
  | list (items : List Value)
  | iter (items : List Value)
  | other (typeName : String)

/-- A Python `bytes` object, as this renderer observes it: it fails the
`str`, `int | float | bool | dict`, `None` and `is_file` checks, is
`Iterable` but not a `list` or `tuple`, and iterating it yields its byte
values as ints. -/
def bytesVal (bs : List Nat) : Value := .iter (bs.map (fun b => .int (Int.ofNat b)))

/-- Lower-case hex digit, for JSON control-character escapes. -/
def hexDigit (n : Nat) : Char :=
  if n < 10 then Char.ofNat (48 + n) else Char.ofNat (87 + n)

/-- JSON string escaping as `json.dumps` with `ensure_ascii=False` performs
it: quote, backslash and the named control escapes, `\u00XX` for the other
control characters, every other character unchanged. -/
def jsonEscapeChar (c : Char) : String :=
  if c = Char.ofNat 34 then "\\\""
  else if c = Char.ofNat 92 then "\\\\"
  else if c = Char.ofNat 10 then "\\n"
  else if c = Char.ofNat 13 then "\\r"
  else if c = Char.ofNat 9 then "\\t"
  else if c = Char.ofNat 8 then "\\b"
  else if c = Char.ofNat 12 then "\\f"
  else if c.toNat < 32 then
    "\\u00" ++ String.singleton (hexDigit (c.toNat / 16)) ++
      String.singleton (hexDigit (c.toNat % 16))
  else String.singleton c

/-- JSON string literal for `s`. -/
def jsonQuote (s : String) : String :=
  "\"" ++ String.join (s.data.map jsonEscapeChar) ++ "\""

mutual
/-- Models the compact JSON serialization collaborator: `json.dumps` with
separators `(",", ":")` (DRF short separators) and `ensure_ascii=False`,
keys and members in insertion order.  `none` is the `TypeError` raised on a
value JSON cannot serialize (a file object, a generator, a function). -/
def jsonRender : Value → Option String
  | .str s => some (jsonQuote s)
  | .int n => some (toString n)
  | .bool b => some (if b then "true" else "false")
  | .null => some "null"
  | .dict fs => (jsonMembers fs).map (fun ms => "\x7b" ++ String.intercalate "," ms ++ "\x7d")
  | .list xs => (jsonItems xs).map (fun ms => "[" ++ String.intercalate "," ms ++ "]")
  | .file _ => none
  | .iter _ => none
  | .other _ => none

/-- Serialized `key:value` members of a JSON object, in order; `none` when
any member value raises. -/
def jsonMembers : List (String × Value) → Option (List String)
  | [] => some []
  | (k, v) :: rest =>
    match jsonRender v with
    | none => none
    | some s =>
      match jsonMembers rest with
      | none => none
      | some ms => some ((jsonQuote k ++ ":" ++ s) :: ms)

/-- Serialized elements of a JSON array, in order; `none` when any element
raises. -/
def jsonItems : List Value → Option (List String)
  | [] => some []
  | v :: rest =>
    match jsonRender v with
    | none => none
    | some s =>
      match jsonItems rest with
      | none => none
      | some ms => some (s :: ms)
end

/-- Models `rest_framework.renderers.JSONRenderer().render`: compact
`json.dumps` output, except that the top-level value `None` renders as the
empty byte string (a DRF special case; a nested `None` still renders as
`null`). -/
def JSONRenderer_render : Value → Option String
  | .null => some ""
  | v => jsonRender v

/-- Source `boundary` class attribute: the fixed boundary token. -/
def boundary : String :=
  "BoUnDaRyStRiNgetpvelarptriznzsespgfmagoxpjpjluxkwqroqgsilzbdfsfgffddg"

/-- The boundary delimiter line `--{boundary}` that opens every part. -/
def boundaryLine : List Nat := to_bytes ("--" ++ boundary)

/-- Text of the Content-Disposition header naming field `key`. -/
def dispLine (key : String) : String :=
  "Content-Disposition: form-data; name=\"" ++ key ++ "\""

/-- Errors that abort a render: the `NotImplementedError` the source raises
for an unclassifiable value (its message names only the value's runtime
type), and the `TypeError` the JSON collaborator raises on a
non-serializable value. -/
inductive RenderError where
  | notImplemented (typeName : String)
  | jsonTypeError
deriving DecidableEq

/-- Sequencing of two line-producing steps: the second runs only when the
first did not raise, and an exception from either aborts the whole
computation (Python's exception propagation out of the accumulating
loops). -/
def exAppend (a b : Except RenderError (List (List Nat))) :
    Except RenderError (List (List Nat)) :=
  match a with
  | .error e => .error e
  | .ok x =>
    match b with
    | .error e => .error e
    | .ok y => .ok (x ++ y)

/-- Source `encode_str`: the lines appended for a text string value —
boundary line, Content-Disposition, blank line (`b""`), UTF-8 body. -/
def encode_str (key val : String) : List (List Nat) :=
  [boundaryLine, to_bytes (dispLine key), [], to_bytes val]

/-- Source `encode_json`: the lines appended for a JSON-kind value —
boundary line, Content-Disposition, `Content-Type: application/json`, blank
line, compact JSON body.  Errors when the serializer raises. -/
def encode_json (key : String) (val : Value) : Except RenderError (List (List Nat)) :=
  match JSONRenderer_render val with
  | some body =>
    .ok [boundaryLine, to_bytes (dispLine key),
         to_bytes "Content-Type: application/json", [], to_bytes body]
  | none => .error .jsonTypeError

/-- Source `os.path.basename`: the final path segment, everything after the
last `/` (empty when the path ends in `/`). -/
def basename (s : String) : String :=
  String.mk (s.data.foldl (fun acc c => if c = '/' then [] else acc ++ [c]) [])

/-- Extension of a filename: the characters after the last dot, or `none`
when there is no dot. -/
def extAfterDot (s : String) : Option String :=
  (s.data.foldl (fun acc c =>
    if c = '.' then some [] else acc.map (fun l => l ++ [c])) none).map String.mk

/-- ASCII lower-casing of one character. -/
def lowerChar (c : Char) : Char :=
  if 65 ≤ c.toNat ∧ c.toNat ≤ 90 then Char.ofNat (c.toNat + 32) else c

/-- Models the standard MIME table collaborator `mimetypes.guess_type`
restricted to the first component: look the lower-cased extension up in a
fixed extension-to-type table, `none` when there is no match. -/
def mimeGuess (filename : String) : Option String :=
  match (extAfterDot filename).map (fun e => String.mk (e.data.map lowerChar)) with
  | some "jpg" => some "image/jpeg"
  | some "jpeg" => some "image/jpeg"
  | some "png" => some "image/png"
  | some "gif" => some "image/gif"
  | some "txt" => some "text/plain"
  | some "json" => some "application/json"
  | some "pdf" => some "application/pdf"
  | _ => none

/-- Filename determined by `encode_file`: `os.path.basename(file.name)` when
the `name` attribute exists and is a string, else `None`.  The source then
tests the result only for truthiness (`elif filename:` and
`if filename else ...`), under which the empty basename and `None` agree, so
the empty basename is collapsed to `none` here. -/
def fileFilename (f : FileStream) : Option String :=
  match f.name with
  | .text s => if basename s = "" then none else some (basename s)
  | _ => none

/-- Content type determined by `encode_file`: the `content_type` attribute
when it exists, else the MIME guess from the filename when a filename was
determined, else `None`; a final `None` (from any branch) falls back to
`application/octet-stream`. -/
def fileContentType (f : FileStream) : String :=
  (match f.content_type with
   | some v => v
   | none =>
     match fileFilename f with
     | some fn => mimeGuess fn
     | none => none).getD "application/octet-stream"

/-- Source `encode_file`: boundary line, Content-Disposition with the
filename clause appended only when a filename was determined, Content-Type,
blank line, then the bytes `file.read()` returns (`to_bytes` leaves them
unchanged). -/
def encode_file (key : String) (f : FileStream) : List (List Nat) :=
  [boundaryLine,
   to_bytes (dispLine key ++
     (match fileFilename f with
      | some fn => "; filename=\"" ++ fn ++ "\""
      | none => "")),
   to_bytes ("Content-Type: " ++ fileContentType f),
   [],
   f.content]

mutual
/-- Source `add_lines`: classify `val` and produce the lines for field
`key`.  The branch order mirrors the source: `isinstance(val, str)`;
`isinstance(val, int | float | bool | dict) or val is None`; `is_file(val)`
(a callable `read`); `isinstance(val, Iterable)`; else raise
`NotImplementedError` naming the value's runtime type. -/
def add_lines (key : String) : Value → Except RenderError (List (List Nat))
  | .str s => .ok (encode_str key s)
  | .int n => encode_json key (.int n)
  | .bool b => encode_json key (.bool b)
  | .null => encode_json key .null
  | .dict fs => encode_json key (.dict fs)
  | .file f => .ok (encode_file key f)
  | .list items => addIterable key items
  | .iter items => addIterable key items
  | .other t => .error (.notImplemented t)

/-- The loop of `add_lines` over an iterable value: for each element, a
`list` or `tuple` element is JSON-encoded whole, any other element goes
through `add_lines` recursively; an exception aborts the loop. -/
def addIterable (key : String) : List Value → Except RenderError (List (List Nat))
  | [] => .ok []
  | item :: rest =>
    exAppend
      (match item with
       | .list xs => encode_json key (.list xs)
       | v => add_lines key v)
      (addIterable key rest)
end

/-- The loop of `render` over `data.items()`: accumulate the lines of every
field in mapping order; an exception aborts everything. -/
def renderLines : List (String × Value) → Except RenderError (List (List Nat))
  | [] => .ok []
  | (key, val) :: rest => exAppend (add_lines key val) (renderLines rest)

/-- Source `render`: the lines of every field, then the closing boundary
line `--{boundary}--` and one empty line, all joined by CRLF. -/
def render (data : List (String × Value)) : Except RenderError (List Nat) :=
  match renderLines data with
  | .error e => .error e
  | .ok lines => .ok (joinCRLF (lines ++ [to_bytes ("--" ++ boundary ++ "--"), []]))

/-- Elements of a collection whose own classification makes the renderer
emit exactly one part: text strings, JSON-kind values the serializer
accepts, files, and nested list/tuple elements (forced to one JSON part).
A nested non-list iterable or an unsupported value does not qualify. -/
def singlePart : Value → Bool
  | .str _ => true
  | .int _ => true
  | .bool _ => true
  | .null => true
  | .dict fs => (jsonMembers fs).isSome
  | .file _ => true
  | .list xs => (jsonItems xs).isSome
  | .iter _ => false
  | .other _ => false

/-- The one part emitted for a single-part element of a collection: a text
part, a file part, or a JSON part (with an unused empty fallback when the
serializer would raise, which `singlePart` rules out). -/
def partLines (key : String) : Value → List (List Nat)
  | .str s => encode_str key s
  | .file f => encode_file key f
  | v =>
    match JSONRenderer_render v with
    | some body =>
      [boundaryLine, to_bytes (dispLine key),
       to_bytes "Content-Type: application/json", [], to_bytes body]
    | none => []

mutual
/-- Erases Python object identity from a value: every file stream's `oid`
is replaced by `0`, everything else is kept.  Two inputs with equal fields,
equal values, and (for streams) equal attributes and remaining contents —
but possibly distinct stream objects — erase to the same value. -/
def eraseV : Value → Value
  | .str s => .str s
  | .int n => .int n
  | .bool b => .bool b
  | .null => .null
  | .dict fs => .dict (eraseKV fs)
  | .file f => .file ⟨0, f.name, f.content_type, f.content⟩
  | .list xs => .list (eraseL xs)
  | .iter xs => .iter (eraseL xs)
  | .other t => .other t

/-- Identity erasure over the fields of a dict or of an input mapping. -/
def eraseKV : List (String × Value) → List (String × Value)
  | [] => []
  | (k, v) :: rest => (k, eraseV v) :: eraseKV rest

/-- Identity erasure over the elements of a collection. -/
def eraseL : List Value → List Value
  | [] => []
  | v :: rest => eraseV v :: eraseL rest
end

/- Helper lemmas shared by several claim theorems. -/

theorem to_bytes_append (s t : String) : to_bytes (s ++ t) = to_bytes s ++ to_bytes t := by
  simp [to_bytes, String.data_append]

theorem exAppend_ok_left (x : List (List Nat)) (b : Except RenderError (List (List Nat))) :
    exAppend (.ok x) b =
      match b with
      | .error e => .error e
      | .ok y => .ok (x ++ y) := rfl

theorem exAppend_assoc (a b c : Except RenderError (List (List Nat))) :
    exAppend (exAppend a b) c = exAppend a (exAppend b c) := by
  cases a <;> cases b <;> cases c <;> simp [exAppend, List.append_assoc]

theorem addIterable_nil (key : String) : addIterable key [] = .ok [] := by
  rw [addIterable.eq_def]

theorem addIterable_cons (key : String) (item : Value) (rest : List Value) :
    addIterable key (item :: rest) =
      exAppend
        (match item with
         | Value.list xs => encode_json key (.list xs)
         | v => add_lines key v)
        (addIterable key rest) := by
  rw [addIterable.eq_def]

theorem renderLines_nil : renderLines [] = .ok [] := by
  rw [renderLines.eq_def]

theorem renderLines_cons (key : String) (val : Value) (rest : List (String × Value)) :
    renderLines ((key, val) :: rest) = exAppend (add_lines key val) (renderLines rest) := by
  rw [renderLines.eq_def]

theorem addIterable_append (key : String) (l1 l2 : List Value) :
    addIterable key (l1 ++ l2) = exAppend (addIterable key l1) (addIterable key l2) := by
  induction l1 with
  | nil =>
    rw [List.nil_append, addIterable_nil]
    cases addIterable key l2 <;> rfl
  | cons item rest ih =>
    rw [List.cons_append, addIterable_cons, addIterable_cons, ih, exAppend_assoc]

theorem renderLines_append (d1 d2 : List (String × Value)) :
    renderLines (d1 ++ d2) = exAppend (renderLines d1) (renderLines d2) := by
  induction d1 with
  | nil =>
    rw [List.nil_append, renderLines_nil]
    cases renderLines d2 <;> rfl
  | cons p rest ih =>
    obtain ⟨key, val⟩ := p
    rw [List.cons_append, renderLines_cons, renderLines_cons, ih, exAppend_assoc]

set_option maxRecDepth 8000

/-- Claim C1: for the mapping {"title": ["Test Item", {"a":3,"b":2}],
"description": "A simple test", "number": 33}, render returns exactly the
CRLF-join of: the boundary line, a Content-Disposition header for "title",
a blank line, "Test Item"; the boundary line, a Content-Disposition header
for "title", "Content-Type: application/json", a blank line,
"{"a":3,"b":2}"; the boundary line, a Content-Disposition header for
"description", a blank line, "A simple test"; the boundary line, a
Content-Disposition header for "number", "Content-Type: application/json",
a blank line, "33"; the closing boundary line with trailing "--"; and an
empty line. -/
theorem render_round_trip_example :
    render [("title", .list [.str "Test Item", .dict [("a", .int 3), ("b", .int 2)]]),
            ("description", .str "A simple test"), ("number", .int 33)] =
    .ok (joinCRLF
      [to_bytes ("--" ++ boundary),
       to_bytes "Content-Disposition: form-data; name=\"title\"",
       [],
       to_bytes "Test Item",
       to_bytes ("--" ++ boundary),
       to_bytes "Content-Disposition: form-data; name=\"title\"",
       to_bytes "Content-Type: application/json",
       [],
       to_bytes "\x7b\"a\":3,\"b\":2\x7d",
       to_bytes ("--" ++ boundary),
       to_bytes "Content-Disposition: form-data; name=\"description\"",
       [],
       to_bytes "A simple test",
       to_bytes ("--" ++ boundary),
       to_bytes "Content-Disposition: form-data; name=\"number\"",
       to_bytes "Content-Type: application/json",
       [],
       to_bytes "33",
       to_bytes ("--" ++ boundary ++ "--"),
       []]) := by
  rfl

/-- Claim C10: for the empty input mapping, render returns exactly the
closing boundary line `--{boundary}--` followed by CRLF and nothing else. -/
theorem render_empty_mapping :
    render [] = .ok (to_bytes ("--" ++ boundary ++ "--") ++ CRLF) := by
  rfl

/-- Claim C5: for every field whose value is a text string, the emitted
part is exactly the boundary line, a Content-Disposition header with the
field name, a blank line, and a body equal to the UTF-8 encoding of the
string; neither header line of the part is a Content-Type header. -/
theorem add_lines_text_part (key s : String) :
    add_lines key (.str s) =
      .ok [boundaryLine, to_bytes (dispLine key), [], to_bytes s] ∧
    ∀ l ∈ [boundaryLine, to_bytes (dispLine key)], ¬ to_bytes "Content-Type" <+: l := by
  refine ⟨rfl, ?_⟩
  intro l hl
  rcases List.mem_cons.mp hl with h | h
  · subst h
    decide
  · rcases List.mem_singleton.mp h with rfl
    intro hp
    rw [dispLine, to_bytes_append, to_bytes_append, List.append_assoc] at hp
    rw [List.isPrefix_append_of_length (by decide)] at hp
    exact absurd hp (by decide)

theorem add_lines_text_part_witness :
    add_lines "k" (.str "hello") =
      .ok [boundaryLine, to_bytes (dispLine "k"), [], to_bytes "hello"] ∧
    ∀ l ∈ [boundaryLine, to_bytes (dispLine "k")], ¬ to_bytes "Content-Type" <+: l :=
  add_lines_text_part "k" "hello"

/-- Claim C9: a raw byte string is not emitted as a single binary or text
part: it is classified as a repeated collection (it exposes no `read` but
is iterable), and render emits one part per byte under the same field name,
each with a Content-Type: application/json header and a body holding that
byte's integer value in decimal. -/
theorem add_lines_bytes_per_byte_parts (key : String) (bs : List Nat) :
    add_lines key (bytesVal bs) =
      .ok ((bs.map (fun b =>
        [boundaryLine, to_bytes (dispLine key),
         to_bytes "Content-Type: application/json", [],
         to_bytes (toString (Int.ofNat b))])).flatten) := by
  have main : ∀ l : List Nat,
      addIterable key (l.map (fun b => Value.int (Int.ofNat b))) =
        .ok ((l.map (fun b =>
          [boundaryLine, to_bytes (dispLine key),
           to_bytes "Content-Type: application/json", [],
           to_bytes (toString (Int.ofNat b))])).flatten) := by
    intro l
    induction l with
    | nil => exact addIterable_nil key
    | cons b rest ih =>
      have hstep : add_lines key (Value.int (Int.ofNat b)) =
          .ok [boundaryLine, to_bytes (dispLine key),
               to_bytes "Content-Type: application/json", [],
               to_bytes (toString (Int.ofNat b))] := rfl
      simp only [List.map_cons, addIterable_cons, hstep, ih, List.flatten_cons, exAppend]
  simpa [bytesVal, add_lines] using main bs

/-- Claim C2 counterexample: the error raised for an unsupported value is
the same for two renders that differ only in the field name — its payload
is built from the value's runtime type alone
(`NotImplementedError(f"The ... type is not supported")`) — so it does not
identify the field name, contrary to the claim that it identifies both the
field name and the runtime type. -/
theorem unsupported_error_same_for_distinct_fields :
    render [("alpha", .other "function")] = .error (.notImplemented "function") ∧
    render [("beta", .other "function")] = .error (.notImplemented "function") :=
  ⟨rfl, rfl⟩

/-- Claim C2 (amended): for a field whose value is of none of the four
supported kinds, render raises the unsupported-type error, whose payload
identifies the value's runtime type (but not the field name), the whole
render aborts immediately, and no partial byte body is returned: whenever
the fields before it render without raising, the entire render returns
exactly that error. -/
theorem render_unsupported_aborts (pre : List (String × Value)) (key tn : String)
    (post : List (String × Value)) (L : List (List Nat))
    (h : renderLines pre = .ok L) :
    render (pre ++ (key, .other tn) :: post) = .error (.notImplemented tn) := by
  have hstep : add_lines key (Value.other tn) = .error (.notImplemented tn) := rfl
  simp only [render, renderLines_append, h, renderLines_cons, hstep, exAppend]

theorem render_unsupported_aborts_witness :
    renderLines [("a", Value.str "x")] = .ok (encode_str "a" "x") ∧
    render ([("a", Value.str "x")] ++ ("beta", Value.other "function") :: [("b", Value.int 1)]) =
      .error (.notImplemented "function") :=
  ⟨rfl, render_unsupported_aborts [("a", Value.str "x")] "beta" "function"
    [("b", Value.int 1)] (encode_str "a" "x") rfl⟩

/-- Claim C4: inside a collection, an element that is itself a list or
tuple is encoded as exactly one part whose headers include
Content-Type: application/json and whose body is the JSON serialization of
the whole element — never expanded into one part per sub-element: with the
surrounding elements contributing lines A and B, the whole collection
yields A, then that single five-line JSON part, then B. -/
theorem nested_list_single_json_part (key : String) (pre post xs : List Value)
    (A B : List (List Nat)) (s : String)
    (hA : addIterable key pre = .ok A) (hB : addIterable key post = .ok B)
    (hs : jsonRender (.list xs) = some s) :
    addIterable key (pre ++ .list xs :: post) =
      .ok (A ++ ([boundaryLine, to_bytes (dispLine key),
                  to_bytes "Content-Type: application/json", [], to_bytes s] ++ B)) := by
  have hjson : encode_json key (.list xs) =
      .ok [boundaryLine, to_bytes (dispLine key),
           to_bytes "Content-Type: application/json", [], to_bytes s] := by
    show (match JSONRenderer_render (.list xs) with
          | some body =>
            Except.ok [boundaryLine, to_bytes (dispLine key),
                       to_bytes "Content-Type: application/json", [], to_bytes body]
          | none => Except.error RenderError.jsonTypeError) = _
    rw [show JSONRenderer_render (.list xs) = jsonRender (.list xs) from rfl, hs]
  rw [addIterable_append, hA, addIterable_cons]
  simp only [hjson, hB, exAppend]

theorem nested_list_single_json_part_witness :
    (addIterable "k" [] = .ok [] ∧ jsonRender (.list [.int 1]) = some "[1]") ∧
    addIterable "k" ([] ++ .list [.int 1] :: []) =
      .ok ([] ++ ([boundaryLine, to_bytes (dispLine "k"),
                   to_bytes "Content-Type: application/json", [], to_bytes "[1]"] ++ [])) :=
  ⟨⟨addIterable_nil "k", rfl⟩,
   nested_list_single_json_part "k" [] [] [.int 1] [] [] "[1]"
     (addIterable_nil "k") (addIterable_nil "k") rfl⟩

/-- Claim C3 counterexample: for the field value [g] where g is an ordered
collection that is not a list or tuple (an iterable yielding 1 then 2), the
collection has N = 1 elements, yet two parts are emitted for the field —
the nested non-list iterable is flattened recursively — so render does not
emit exactly N parts for every ordered-collection value. -/
theorem repeated_collection_two_parts_for_one_element :
    add_lines "k" (.list [.iter [.int 1, .int 2]]) =
      .ok [boundaryLine, to_bytes (dispLine "k"),
           to_bytes "Content-Type: application/json", [], to_bytes "1",
           boundaryLine, to_bytes (dispLine "k"),
           to_bytes "Content-Type: application/json", [], to_bytes "2"] ∧
    [boundaryLine, to_bytes (dispLine "k"),
     to_bytes "Content-Type: application/json", [], to_bytes "1",
     boundaryLine, to_bytes (dispLine "k"),
     to_bytes "Content-Type: application/json", [], to_bytes "2"].count boundaryLine = 2 :=
  ⟨rfl, by decide⟩

theorem singlePart_block (key : String) (v : Value) (h : singlePart v = true) :
    (match v with
     | Value.list xs => encode_json key (.list xs)
     | w => add_lines key w) = .ok (partLines key v) ∧
    ∃ d rest, partLines key v = boundaryLine :: d :: rest ∧
      to_bytes (dispLine key) <+: d := by
  cases v with
  | str s =>
    exact ⟨rfl, to_bytes (dispLine key), [[], to_bytes s], rfl, List.prefix_refl _⟩
  | int n =>
    exact ⟨rfl, to_bytes (dispLine key),
      [to_bytes "Content-Type: application/json", [], to_bytes (toString n)],
      rfl, List.prefix_refl _⟩
  | bool b =>
    exact ⟨rfl, to_bytes (dispLine key),
      [to_bytes "Content-Type: application/json", [],
       to_bytes (if b then "true" else "false")],
      rfl, List.prefix_refl _⟩
  | null =>
    exact ⟨rfl, to_bytes (dispLine key),
      [to_bytes "Content-Type: application/json", [], to_bytes ""],
      rfl, List.prefix_refl _⟩
  | dict fs =>
    obtain ⟨ms, hms⟩ := Option.isSome_iff_exists.mp
      (h : (jsonMembers fs).isSome = true)
    have hpart : partLines key (.dict fs) =
        [boundaryLine, to_bytes (dispLine key),
         to_bytes "Content-Type: application/json", [],
         to_bytes ("\x7b" ++ String.intercalate "," ms ++ "\x7d")] := by
      show (match JSONRenderer_render (.dict fs) with
            | some body =>
              [boundaryLine, to_bytes (dispLine key),
               to_bytes "Content-Type: application/json", [], to_bytes body]
            | none => []) = _
      rw [show JSONRenderer_render (.dict fs) =
            (jsonMembers fs).map
              (fun ms2 => "\x7b" ++ String.intercalate "," ms2 ++ "\x7d") from rfl, hms]
      rfl
    refine ⟨?_, to_bytes (dispLine key),
      [to_bytes "Content-Type: application/json", [],
       to_bytes ("\x7b" ++ String.intercalate "," ms ++ "\x7d")],
      by rw [hpart], List.prefix_refl _⟩
    show encode_json key (.dict fs) = _
    rw [hpart]
    show (match JSONRenderer_render (.dict fs) with
          | some body =>
            Except.ok [boundaryLine, to_bytes (dispLine key),
                       to_bytes "Content-Type: application/json", [], to_bytes body]
          | none => Except.error RenderError.jsonTypeError) = _
    rw [show JSONRenderer_render (.dict fs) =
          (jsonMembers fs).map
            (fun ms2 => "\x7b" ++ String.intercalate "," ms2 ++ "\x7d") from rfl, hms]
    rfl
  | file f =>
    refine ⟨rfl,
      to_bytes (dispLine key ++
        (match fileFilename f with
         | some fn => "; filename=\"" ++ fn ++ "\""
         | none => "")),
      [to_bytes ("Content-Type: " ++ fileContentType f), [], f.content], rfl, ?_⟩
    rw [to_bytes_append]
    exact List.prefix_append _ _
  | list xs =>
    obtain ⟨ms, hms⟩ := Option.isSome_iff_exists.mp
      (h : (jsonItems xs).isSome = true)
    have hpart : partLines key (.list xs) =
        [boundaryLine, to_bytes (dispLine key),
         to_bytes "Content-Type: application/json", [],
         to_bytes ("[" ++ String.intercalate "," ms ++ "]")] := by
      show (match JSONRenderer_render (.list xs) with
            | some body =>
              [boundaryLine, to_bytes (dispLine key),
               to_bytes "Content-Type: application/json", [], to_bytes body]
            | none => []) = _
      rw [show JSONRenderer_render (.list xs) =
            (jsonItems xs).map
              (fun ms2 => "[" ++ String.intercalate "," ms2 ++ "]") from rfl, hms]
      rfl
    refine ⟨?_, to_bytes (dispLine key),
      [to_bytes "Content-Type: application/json", [],
       to_bytes ("[" ++ String.intercalate "," ms ++ "]")],
      by rw [hpart], List.prefix_refl _⟩
    show encode_json key (.list xs) = _
    rw [hpart]
    show (match JSONRenderer_render (.list xs) with
          | some body =>
            Except.ok [boundaryLine, to_bytes (dispLine key),
                       to_bytes "Content-Type: application/json", [], to_bytes body]
          | none => Except.error RenderError.jsonTypeError) = _
    rw [show JSONRenderer_render (.list xs) =
          (jsonItems xs).map
            (fun ms2 => "[" ++ String.intercalate "," ms2 ++ "]") from rfl, hms]
    rfl
  | iter xs => simp [singlePart] at h
  | other t => simp [singlePart] at h

theorem addIterable_all_single (key : String) : ∀ items : List Value,
    (∀ v ∈ items, singlePart v = true) →
    addIterable key items = .ok ((items.map (partLines key)).flatten)
  | [], _ => addIterable_nil key
  | v :: rest, h => by
    rw [addIterable_cons, (singlePart_block key v (h v (List.mem_cons_self _ _))).1,
        addIterable_all_single key rest (fun w hw => h w (List.mem_cons_of_mem _ hw)),
        List.map_cons, List.flatten_cons]
    rfl

/-- Claim C3 (amended): for a field whose value is an ordered collection
all of whose elements are of single-part kind (text, JSON-serializable
JSON-kind, file, or a nested list/tuple forced to one JSON part), render
emits exactly N parts for the collection's N elements, in iteration order,
each part opening with the boundary line and a Content-Disposition header
carrying the identical field name, each element encoded per its own
classification.  (Without that restriction the claim fails: a nested
non-list iterable element is flattened into several parts.) -/
theorem addIterable_single_part_elements (key : String) (items : List Value)
    (h : ∀ v ∈ items, singlePart v = true) :
    (add_lines key (.iter items) = .ok ((items.map (partLines key)).flatten) ∧
     add_lines key (.list items) = .ok ((items.map (partLines key)).flatten)) ∧
    (items.map (partLines key)).length = items.length ∧
    ∀ v ∈ items, ∃ d rest, partLines key v = boundaryLine :: d :: rest ∧
      to_bytes (dispLine key) <+: d := by
  refine ⟨⟨?_, ?_⟩, by simp, fun v hv => (singlePart_block key v (h v hv)).2⟩
  · show addIterable key items = _
    exact addIterable_all_single key items h
  · show addIterable key items = _
    exact addIterable_all_single key items h

theorem addIterable_single_part_elements_witness :
    (∀ v ∈ ([.str "abc", .int 7] : List Value), singlePart v = true) ∧
    ((add_lines "tag" (.iter [.str "abc", .int 7]) =
        .ok ((([.str "abc", .int 7] : List Value).map (partLines "tag")).flatten) ∧
      add_lines "tag" (.list [.str "abc", .int 7]) =
        .ok ((([.str "abc", .int 7] : List Value).map (partLines "tag")).flatten)) ∧
     (([.str "abc", .int 7] : List Value).map (partLines "tag")).length = 2 ∧
     ∀ v ∈ ([.str "abc", .int 7] : List Value), ∃ d rest,
       partLines "tag" v = boundaryLine :: d :: rest ∧
         to_bytes (dispLine "tag") <+: d) :=
  ⟨by decide, addIterable_single_part_elements "tag" [.str "abc", .int 7] (by decide)⟩

/-- Claim C6: for a file-kind value, the emitted Content-Type header value
follows this precedence: the stream's content_type attribute when that
attribute is present; otherwise, when a filename was determined, the MIME
type guessed from the filename's extension via the standard MIME table;
otherwise application/octet-stream; and when the extension guess yields no
match, application/octet-stream is also used.  The third line of the
emitted part is exactly that Content-Type header. -/
theorem encode_file_content_type_precedence (key : String) (f : FileStream) :
    (encode_file key f)[2]? = some (to_bytes ("Content-Type: " ++ fileContentType f)) ∧
    (∀ ct, f.content_type = some (some ct) → fileContentType f = ct) ∧
    (f.content_type = none → ∀ fn, fileFilename f = some fn →
      fileContentType f = (mimeGuess fn).getD "application/octet-stream") ∧
    (f.content_type = none → ∀ fn, fileFilename f = some fn → mimeGuess fn = none →
      fileContentType f = "application/octet-stream") ∧
    (f.content_type = none → fileFilename f = none →
      fileContentType f = "application/octet-stream") := by
  refine ⟨rfl, ?_, ?_, ?_, ?_⟩
  · intro ct hct
    simp [fileContentType, hct]
  · intro hct fn hfn
    simp [fileContentType, hct, hfn]
  · intro hct fn hfn hg
    simp [fileContentType, hct, hfn, hg]
  · intro hct hfn
    simp [fileContentType, hct, hfn]

theorem encode_file_content_type_precedence_witness :
    ((⟨0, .text "/tmp/photo.jpg", none, [7]⟩ : FileStream).content_type = none ∧
     fileFilename ⟨0, .text "/tmp/photo.jpg", none, [7]⟩ = some "photo.jpg") ∧
    fileContentType ⟨0, .text "/tmp/photo.jpg", none, [7]⟩ =
      (mimeGuess "photo.jpg").getD "application/octet-stream" :=
  ⟨⟨rfl, rfl⟩,
   (encode_file_content_type_precedence "file" ⟨0, .text "/tmp/photo.jpg", none, [7]⟩).2.2.1
     rfl "photo.jpg" rfl⟩

/-- Claim C7: for a file-kind value, when the stream's name attribute is a
text string whose base name (final path segment) is non-empty, the
determined filename is that base name and the Content-Disposition header
carries the appended filename clause; when the name attribute is absent,
non-textual (an int file descriptor), or its base name is empty, no
filename clause appears in the Content-Disposition header. -/
theorem encode_file_filename_clause (key : String) (f : FileStream) :
    (∀ s, f.name = .text s → basename s ≠ "" →
      fileFilename f = some (basename s) ∧
      (encode_file key f)[1]? =
        some (to_bytes (dispLine key ++ ("; filename=\"" ++ basename s ++ "\"")))) ∧
    ((f.name = .absent ∨ (∃ n, f.name = .fd n) ∨
      (∃ s, f.name = .text s ∧ basename s = "")) →
      fileFilename f = none ∧
      (encode_file key f)[1]? = some (to_bytes (dispLine key))) := by
  constructor
  · intro s hs hbase
    have hf : fileFilename f = some (basename s) := by
      simp [fileFilename, hs, hbase]
    refine ⟨hf, ?_⟩
    simp [encode_file, hf]
  · intro hcase
    have hf : fileFilename f = none := by
      rcases hcase with h1 | ⟨n, h1⟩ | ⟨s, h1, h2⟩
      · simp [fileFilename, h1]
      · simp [fileFilename, h1]
      · simp [fileFilename, h1, h2]
    refine ⟨hf, ?_⟩
    simp [encode_file, hf]

theorem encode_file_filename_clause_witness :
    ((⟨0, .text "/tmp/a/b.png", none, []⟩ : FileStream).name = .text "/tmp/a/b.png" ∧
     basename "/tmp/a/b.png" ≠ "") ∧
    (fileFilename ⟨0, .text "/tmp/a/b.png", none, []⟩ = some (basename "/tmp/a/b.png") ∧
     (encode_file "pic" ⟨0, .text "/tmp/a/b.png", none, []⟩)[1]? =
       some (to_bytes (dispLine "pic" ++
         ("; filename=\"" ++ basename "/tmp/a/b.png" ++ "\"")))) :=
  ⟨⟨rfl, by decide⟩,
   (encode_file_filename_clause "pic" ⟨0, .text "/tmp/a/b.png", none, []⟩).1
     "/tmp/a/b.png" rfl (by decide)⟩

theorem eraseL_cons (v : Value) (rest : List Value) :
    eraseL (v :: rest) = eraseV v :: eraseL rest := by
  rw [eraseL.eq_def]

theorem eraseKV_cons (k : String) (v : Value) (rest : List (String × Value)) :
    eraseKV ((k, v) :: rest) = (k, eraseV v) :: eraseKV rest := by
  rw [eraseKV.eq_def]

theorem jsonMembers_cons (k : String) (v : Value) (rest : List (String × Value)) :
    jsonMembers ((k, v) :: rest) =
      match jsonRender v with
      | none => none
      | some s =>
        match jsonMembers rest with
        | none => none
        | some ms => some ((jsonQuote k ++ ":" ++ s) :: ms) := by
  rw [jsonMembers.eq_def]

theorem jsonItems_cons (v : Value) (rest : List Value) :
    jsonItems (v :: rest) =
      match jsonRender v with
      | none => none
      | some s =>
        match jsonItems rest with
        | none => none
        | some ms => some (s :: ms) := by
  rw [jsonItems.eq_def]

mutual
theorem jsonRender_erase : ∀ v : Value, jsonRender (eraseV v) = jsonRender v
  | .str _ => rfl
  | .int _ => rfl
  | .bool _ => rfl
  | .null => rfl
  | .dict fs => by
    show (jsonMembers (eraseKV fs)).map
        (fun ms => "\x7b" ++ String.intercalate "," ms ++ "\x7d") =
      (jsonMembers fs).map
        (fun ms => "\x7b" ++ String.intercalate "," ms ++ "\x7d")
    rw [jsonMembers_erase fs]
  | .list xs => by
    show (jsonItems (eraseL xs)).map
        (fun ms => "[" ++ String.intercalate "," ms ++ "]") =
      (jsonItems xs).map
        (fun ms => "[" ++ String.intercalate "," ms ++ "]")
    rw [jsonItems_erase xs]
  | .file _ => rfl
  | .iter _ => rfl
  | .other _ => rfl

theorem jsonMembers_erase : ∀ fs : List (String × Value),
    jsonMembers (eraseKV fs) = jsonMembers fs
  | [] => rfl
  | (k, v) :: rest => by
    rw [eraseKV_cons, jsonMembers_cons, jsonMembers_cons,
        jsonRender_erase v, jsonMembers_erase rest]

theorem jsonItems_erase : ∀ xs : List Value, jsonItems (eraseL xs) = jsonItems xs
  | [] => rfl
  | v :: rest => by
    rw [eraseL_cons, jsonItems_cons, jsonItems_cons,
        jsonRender_erase v, jsonItems_erase rest]
end

theorem JSONRenderer_render_erase (v : Value) :
    JSONRenderer_render (eraseV v) = JSONRenderer_render v := by
  cases v with
  | null => rfl
  | str s => exact jsonRender_erase (.str s)
  | int n => exact jsonRender_erase (.int n)
  | bool b => exact jsonRender_erase (.bool b)
  | dict fs => exact jsonRender_erase (.dict fs)
  | file f => exact jsonRender_erase (.file f)
  | list xs => exact jsonRender_erase (.list xs)
  | iter xs => exact jsonRender_erase (.iter xs)
  | other t => exact jsonRender_erase (.other t)

theorem encode_json_erase (key : String) (v : Value) :
    encode_json key (eraseV v) = encode_json key v := by
  simp only [encode_json, JSONRenderer_render_erase v]

mutual
theorem add_lines_erase (key : String) : ∀ v : Value,
    add_lines key (eraseV v) = add_lines key v
  | .str _ => rfl
  | .int n => encode_json_erase key (.int n)
  | .bool b => encode_json_erase key (.bool b)
  | .null => encode_json_erase key .null
  | .dict fs => encode_json_erase key (.dict fs)
  | .file _ => rfl
  | .list xs => addIterable_erase key xs
  | .iter xs => addIterable_erase key xs
  | .other _ => rfl

theorem addIterable_erase (key : String) : ∀ xs : List Value,
    addIterable key (eraseL xs) = addIterable key xs
  | [] => rfl
  | v :: rest => by
    rw [eraseL_cons, addIterable_cons, addIterable_cons, addIterable_erase key rest]
    congr 1
    cases v with
    | str s => exact add_lines_erase key (.str s)
    | int n => exact add_lines_erase key (.int n)
    | bool b => exact add_lines_erase key (.bool b)
    | null => exact add_lines_erase key .null
    | dict fs => exact add_lines_erase key (.dict fs)
    | file f => exact add_lines_erase key (.file f)
    | list xs2 => exact encode_json_erase key (.list xs2)
    | iter xs2 => exact add_lines_erase key (.iter xs2)
    | other t => exact add_lines_erase key (.other t)
end

theorem renderLines_erase : ∀ d : List (String × Value),
    renderLines (eraseKV d) = renderLines d
  | [] => rfl
  | (k, v) :: rest => by
    rw [eraseKV_cons, renderLines_cons, renderLines_cons,
        add_lines_erase k v, renderLines_erase rest]

/-- Claim C8: render is deterministic: two calls whose inputs have the same
field names and equal values — where file-kind values may be distinct
stream objects as long as their attributes and remaining contents are
identical, i.e. the inputs agree after erasing stream object identity —
return byte-identical output. -/
theorem render_deterministic (d1 d2 : List (String × Value))
    (h : eraseKV d1 = eraseKV d2) : render d1 = render d2 := by
  have h1 : renderLines d1 = renderLines d2 := by
    rw [← renderLines_erase d1, ← renderLines_erase d2, h]
  simp only [render, h1]

theorem render_deterministic_witness :
    eraseKV [("f", Value.file ⟨1, .text "a.txt", none, [104, 105]⟩)] =
      eraseKV [("f", Value.file ⟨2, .text "a.txt", none, [104, 105]⟩)] ∧
    render [("f", Value.file ⟨1, .text "a.txt", none, [104, 105]⟩)] =
      render [("f", Value.file ⟨2, .text "a.txt", none, [104, 105]⟩)] :=
  ⟨rfl, render_deterministic _ _ rfl⟩

end DrfMultipart
